import Mathlib

/-!
# Verification of the marketplace backend's order/cart/stock logic

Shallow embedding of the Django marketplace demo (`products/`, `orders/`).
Decimal money amounts are embedded as `Int` (the decimal fields store exact
values, point position projected away); `Product.stock` is
`models.IntegerField`, so it is an `Int` and may in principle be negative;
quantities are `PositiveIntegerField`, embedded as `Nat` with explicit
`1 ≤ q` checks where the code performs them.

State is the per-user view a request handler sees: the product table, the
requesting user's cart items, and the order table. Each HTTP handler is a
pure function `State → Except String (result × State)` (an `Except.error`
is a 4xx response: the transaction-less ORM sequence either raised before
any write or, where it did write, we model the writes explicitly).
-/

namespace Marketplace

/-- `products.models.Product`, restricted to the fields the order/cart logic
reads. `stock` is a plain `IntegerField` (default 0), hence `Int`.
`is_active` — Modelled from the spec: the provided `products/models.py` is
missing the `is_active` field declaration, but the spec's data-model table
("Product … is_active flag"), `ProductViewSet.queryset`,
`perform_destroy` and both serializers use it as a boolean field. -/
structure Product where
  id : Nat
  price : Int
  stock : Int
  is_active : Bool
  deriving Repr, DecidableEq

/-- `orders.models.CartItem`: a (product, quantity) pair in the user's cart;
`unique_together ("cart", "product")` — one row per product. -/
structure CartItem where
  product_id : Nat
  quantity : Nat
  deriving Repr, DecidableEq

/-- `Order.STATUS_CHOICES`. -/
inductive OrderStatus where
  | pending
  | processing
  | shipped
  | delivered
  | cancelled
  deriving Repr, DecidableEq

/-- `orders.models.OrderItem`: line item with the price snapshot taken at
order time (`price=cart_item.product.price` in `OrderCreateSerializer.create`). -/
structure OrderItem where
  product_id : Nat
  quantity : Nat
  price : Int
  deriving Repr, DecidableEq

/-- `orders.models.Order`, restricted to the fields the claims mention.
`status` defaults to `"pending"` on creation. -/
structure Order where
  total_price : Int
  status : OrderStatus
  items : List OrderItem
  deriving Repr, DecidableEq

/-- The state a request handler touches: product table, the requesting
user's cart (`Cart.items`), and the user's orders (indexed by position,
standing in for primary keys). -/
structure State where
  products : List Product
  cart : List CartItem
  orders : List Order
  deriving Repr, DecidableEq

/-- `Product.objects.get(id=pid)` (first row with that id). -/
def findProduct (ps : List Product) (pid : Nat) : Option Product :=
  ps.find? (fun p => p.id == pid)

/-- `product.save()` after mutating fields: rewrite the row(s) with that id. -/
def updateProduct (ps : List Product) (pid : Nat) (f : Product → Product) :
    List Product :=
  ps.map (fun p => if p.id == pid then f p else p)

/-- `CartItemSerializer.validate_quantity` + `validate`: quantity ≥ 1,
product exists, `product.stock < quantity` rejected, inactive rejected. -/
def validateCartItem (ps : List Product) (pid : Nat) (qty : Nat) :
    Except String Unit :=
  if qty < 1 then .error "Quantity must be at least 1"
  else
    match findProduct ps pid with
    | none => .error "Product not found"
    | some p =>
      if p.stock < (qty : Int) then .error "Only N items available in stock"
      else if !p.is_active then .error "This product is not available"
      else .ok ()

/-- `CartViewSet.create` (POST /api/cart/): validate, then
`CartItem.objects.get_or_create(cart, product_id, defaults={quantity})`;
when the row already exists, `cart_item.quantity += quantity`. -/
def addToCart (s : State) (pid : Nat) (qty : Nat) : Except String State :=
  match validateCartItem s.products pid qty with
  | .error e => .error e
  | .ok _ =>
    match s.cart.find? (fun ci => ci.product_id == pid) with
    | none => .ok { s with cart := s.cart ++ [⟨pid, qty⟩] }
    | some _ =>
      .ok { s with
        cart := s.cart.map (fun ci =>
          if ci.product_id == pid then { ci with quantity := ci.quantity + qty }
          else ci) }

/-- `CartViewSet.update_item` (PATCH /api/cart/items/{id}/): 404 when the
item is absent, 400 when quantity < 1 or `cart_item.product.stock < quantity`;
otherwise overwrite the quantity. -/
def updateCartItem (s : State) (pid : Nat) (qty : Nat) : Except String State :=
  match s.cart.find? (fun ci => ci.product_id == pid) with
  | none => .error "Item not found"
  | some _ =>
    if qty < 1 then .error "Invalid quantity"
    else
      match findProduct s.products pid with
      | none => .error "Item not found"
      | some p =>
        if p.stock < (qty : Int) then .error "Only N items available"
        else
          .ok { s with
            cart := s.cart.map (fun ci =>
              if ci.product_id == pid then { ci with quantity := qty } else ci) }

/-- `CartViewSet.remove_item` (DELETE /api/cart/items/{id}/). -/
def removeCartItem (s : State) (pid : Nat) : Except String State :=
  match s.cart.find? (fun ci => ci.product_id == pid) with
  | none => .error "Item not found"
  | some _ => .ok { s with cart := s.cart.filter (fun ci => ci.product_id != pid) }

/-- `Cart.total_price`: `sum(item.subtotal for item in items)` with
`CartItem.subtotal = quantity * product.price`; the FK dereference
`item.product` fails only on a dangling reference (`DoesNotExist`). -/
def cartTotalPrice (ps : List Product) (cart : List CartItem) :
    Except String Int :=
  match cart with
  | [] => .ok 0
  | ci :: rest =>
    match findProduct ps ci.product_id with
    | none => .error "Product matching query does not exist."
    | some p => do
      let t ← cartTotalPrice ps rest
      .ok ((ci.quantity : Int) * p.price + t)

/-- The item-creation loop of `OrderCreateSerializer.create`: for each cart
item in order, create an `OrderItem` with `price=cart_item.product.price`
(the product's price at that iteration), then `product.stock -= quantity;
product.save()`. Returns the created items and the updated product table. -/
def mkOrderItems (ps : List Product) (cart : List CartItem) :
    Except String (List OrderItem × List Product) :=
  match cart with
  | [] => .ok ([], ps)
  | ci :: rest =>
    match findProduct ps ci.product_id with
    | none => .error "Product matching query does not exist."
    | some p => do
      let (items, ps') ← mkOrderItems
        (updateProduct ps ci.product_id
          (fun q => { q with stock := q.stock - (ci.quantity : Int) }))
        rest
      .ok (⟨ci.product_id, ci.quantity, p.price⟩ :: items, ps')

/-- `OrderCreateSerializer.create` (POST /api/orders/): reject an empty cart;
compute `total = cart.total_price`; create the order (status defaults to
`"pending"`); create order items while decrementing stock; clear the cart. -/
def placeOrder (s : State) : Except String (Order × State) :=
  if s.cart.isEmpty then .error "Cart is empty"
  else do
    let total ← cartTotalPrice s.products s.cart
    let (items, ps') ← mkOrderItems s.products s.cart
    let order : Order := { total_price := total, status := .pending, items := items }
    .ok (order, { products := ps', cart := [], orders := s.orders ++ [order] })

/-- The stock-restoration loop of `OrderViewSet.cancel`: for each line item,
`product.stock += item.quantity; product.save()`. -/
def restoreStock (ps : List Product) (items : List OrderItem) : List Product :=
  items.foldl
    (fun acc it =>
      updateProduct acc it.product_id
        (fun p => { p with stock := p.stock + (it.quantity : Int) }))
    ps

/-- `OrderViewSet.cancel` (POST /api/orders/{id}/cancel/): 404 on a missing
order; 400 when status is `"shipped"` or `"delivered"`; otherwise restore
stock for every line item and set status to `"cancelled"`. -/
def cancelOrder (s : State) (i : Nat) : Except String State :=
  match s.orders.get? i with
  | none => .error "Not found."
  | some o =>
    if o.status = .shipped ∨ o.status = .delivered then
      .error "Cannot cancel shipped or delivered orders"
    else
      .ok { s with
        products := restoreStock s.products o.items,
        orders := s.orders.set i { o with status := .cancelled } }

/-- Parsing of the `"status"` request field against `Order.STATUS_CHOICES`. -/
def statusFromString : String → Option OrderStatus
  | "pending" => some .pending
  | "processing" => some .processing
  | "shipped" => some .shipped
  | "delivered" => some .delivered
  | "cancelled" => some .cancelled
  | _ => none

/-- `OrderViewSet.update_status` (PATCH /api/orders/{id}/update_status/):
404 on a missing order, 400 on a status string outside `STATUS_CHOICES`;
otherwise overwrite the status — the current status is never consulted. -/
def updateStatus (s : State) (i : Nat) (new : String) : Except String State :=
  match s.orders.get? i with
  | none => .error "Not found."
  | some o =>
    match statusFromString new with
    | none => .error "Invalid status"
    | some st => .ok { s with orders := s.orders.set i { o with status := st } }

/-- A product price update via PUT/PATCH /api/products/{slug}/
(`ProductCreateSerializer` + `perform_update`): only the price field changes
here; order rows are not touched. -/
def updateProductPrice (s : State) (pid : Nat) (newPrice : Int) : State :=
  { s with products := updateProduct s.products pid (fun p => { p with price := newPrice }) }

/-- `ProductViewSet.perform_destroy` (DELETE /api/products/{slug}/):
`instance.is_active = False; instance.save()` — no row is deleted. -/
def performDestroy (s : State) (pid : Nat) : State :=
  { s with products := updateProduct s.products pid (fun p => { p with is_active := false }) }

/-- `ProductViewSet.queryset`: `Product.objects.filter(is_active=True)` —
the public listing. -/
def publicProducts (ps : List Product) : List Product :=
  ps.filter (fun p => p.is_active)

/-- Spec-side helper: the price of product `pid` in table `ps` (0 when
absent; the theorems use it only where the product is known to exist). -/
def priceOf (ps : List Product) (pid : Nat) : Int :=
  ((findProduct ps pid).map (fun p => p.price)).getD 0

/-- Spec-side helper: total quantity of product `pid` across the cart. -/
def cartQty (cart : List CartItem) (pid : Nat) : Nat :=
  ((cart.filter (fun ci => ci.product_id == pid)).map (fun ci => ci.quantity)).sum

/-- Spec-side helper: total quantity of product `pid` across order items. -/
def orderQty (items : List OrderItem) (pid : Nat) : Nat :=
  ((items.filter (fun it => it.product_id == pid)).map (fun it => it.quantity)).sum

/-! ## Helper lemmas -/

theorem findProduct_updateProduct (ps : List Product) (pid pid' : Nat)
    (f : Product → Product) (hf : ∀ p, (f p).id = p.id) :
    findProduct (updateProduct ps pid f) pid' =
      if pid' = pid then (findProduct ps pid').map f else findProduct ps pid' := by
  unfold findProduct updateProduct
  have hg : ∀ q : Product, (if q.id == pid then f q else q).id = q.id := by
    intro q; split
    · exact hf q
    · rfl
  rw [List.find?_map]
  have hpred : ((fun p : Product => p.id == pid') ∘
      (fun p => if p.id == pid then f p else p)) = fun p : Product => p.id == pid' := by
    funext q
    simp only [Function.comp_apply, hg]
  rw [hpred]
  cases hfind : ps.find? (fun p => p.id == pid') with
  | none => split <;> rfl
  | some q =>
    have hq : q.id = pid' := by simpa using List.find?_some hfind
    by_cases h : pid' = pid
    · subst h
      simp [Option.map, hq]
    · simp [Option.map, h, hq]

theorem findProduct_updateProduct_isSome (ps : List Product) (pid pid' : Nat)
    (f : Product → Product) (hf : ∀ p, (f p).id = p.id) :
    (findProduct (updateProduct ps pid f) pid').isSome =
      (findProduct ps pid').isSome := by
  rw [findProduct_updateProduct ps pid pid' f hf]
  split <;> simp

theorem priceOf_updateProduct (ps : List Product) (pid pid' : Nat)
    (f : Product → Product) (hf : ∀ p, (f p).id = p.id)
    (hp : ∀ p, (f p).price = p.price) :
    priceOf (updateProduct ps pid f) pid' = priceOf ps pid' := by
  unfold priceOf
  rw [findProduct_updateProduct ps pid pid' f hf]
  split
  · cases findProduct ps pid' <;> simp [hp]
  · rfl

theorem cartQty_cons (ci : CartItem) (rest : List CartItem) (pid : Nat) :
    cartQty (ci :: rest) pid =
      (if ci.product_id = pid then ci.quantity else 0) + cartQty rest pid := by
  by_cases h : ci.product_id = pid
  · simp [cartQty, List.filter_cons, h]
  · simp [cartQty, List.filter_cons, h]

theorem orderQty_cons (it : OrderItem) (rest : List OrderItem) (pid : Nat) :
    orderQty (it :: rest) pid =
      (if it.product_id = pid then it.quantity else 0) + orderQty rest pid := by
  by_cases h : it.product_id = pid
  · simp [orderQty, List.filter_cons, h]
  · simp [orderQty, List.filter_cons, h]

theorem mkOrderItems_stock (cart : List CartItem) (ps : List Product)
    (items : List OrderItem) (ps' : List Product)
    (h : mkOrderItems ps cart = .ok (items, ps')) (pid : Nat) :
    findProduct ps' pid = (findProduct ps pid).map
      (fun p => { p with stock := p.stock - (cartQty cart pid : Int) }) := by
  induction cart generalizing ps items ps' with
  | nil =>
    simp only [mkOrderItems, Except.ok.injEq, Prod.mk.injEq] at h
    rw [← h.2]
    cases findProduct ps pid <;> simp [cartQty]
  | cons ci rest ih =>
    cases hfp : findProduct ps ci.product_id with
    | none => simp [mkOrderItems, hfp] at h
    | some p =>
      simp only [mkOrderItems, hfp] at h
      cases hrec : mkOrderItems
          (updateProduct ps ci.product_id
            (fun q => { q with stock := q.stock - (ci.quantity : Int) })) rest with
      | error e => rw [hrec] at h; simp [Bind.bind, Except.bind] at h
      | ok r =>
        obtain ⟨items0, ps0⟩ := r
        rw [hrec] at h
        simp only [Bind.bind, Except.bind, Except.ok.injEq, Prod.mk.injEq] at h
        rw [← h.2]
        rw [ih _ _ _ hrec]
        rw [findProduct_updateProduct ps ci.product_id pid
          (fun q => { q with stock := q.stock - (ci.quantity : Int) }) (fun q => rfl)]
        rw [cartQty_cons]
        by_cases hp : pid = ci.product_id
        · have hp' : ci.product_id = pid := hp.symm
          simp only [if_pos hp, if_pos hp', Option.map_map]
          cases findProduct ps pid with
          | none => rfl
          | some q =>
            have : q.stock - (ci.quantity : Int) - (cartQty rest pid : Int) =
                q.stock - ((ci.quantity + cartQty rest pid : Nat) : Int) := by
              push_cast
              ring
            simp [this]
        · have hp' : ¬ ci.product_id = pid := fun hh => hp hh.symm
          simp only [if_neg hp, if_neg hp', Nat.zero_add]

theorem mkOrderItems_items (cart : List CartItem) (ps : List Product)
    (items : List OrderItem) (ps' : List Product)
    (h : mkOrderItems ps cart = .ok (items, ps')) :
    items = cart.map (fun ci =>
      { product_id := ci.product_id, quantity := ci.quantity,
        price := priceOf ps ci.product_id }) := by
  induction cart generalizing ps items ps' with
  | nil =>
    simp only [mkOrderItems, Except.ok.injEq, Prod.mk.injEq] at h
    simp [← h.1]
  | cons ci rest ih =>
    cases hfp : findProduct ps ci.product_id with
    | none => simp [mkOrderItems, hfp] at h
    | some p =>
      simp only [mkOrderItems, hfp] at h
      cases hrec : mkOrderItems
          (updateProduct ps ci.product_id
            (fun q => { q with stock := q.stock - (ci.quantity : Int) })) rest with
      | error e => rw [hrec] at h; simp [Bind.bind, Except.bind] at h
      | ok r =>
        obtain ⟨items0, ps0⟩ := r
        rw [hrec] at h
        simp only [Bind.bind, Except.bind, Except.ok.injEq, Prod.mk.injEq] at h
        rw [← h.1]
        have hrest := ih _ _ _ hrec
        have hpr : ∀ pid', priceOf (updateProduct ps ci.product_id
            (fun q => { q with stock := q.stock - (ci.quantity : Int) })) pid' =
            priceOf ps pid' := by
          intro pid'
          exact priceOf_updateProduct ps ci.product_id pid' _ (fun q => rfl) (fun q => rfl)
        simp only [List.map_cons, List.cons.injEq]
        constructor
        · simp [priceOf, hfp]
        · rw [hrest]
          exact List.map_congr_left (fun ci' _ => by rw [hpr])

theorem mkOrderItems_isOk (cart : List CartItem) (ps : List Product)
    (hex : ∀ ci ∈ cart, (findProduct ps ci.product_id).isSome) :
    ∃ r, mkOrderItems ps cart = .ok r := by
  induction cart generalizing ps with
  | nil => exact ⟨([], ps), rfl⟩
  | cons ci rest ih =>
    have h1 : (findProduct ps ci.product_id).isSome := hex ci (by simp)
    cases hfp : findProduct ps ci.product_id with
    | none => rw [hfp] at h1; simp at h1
    | some p =>
      have hex' : ∀ ci' ∈ rest,
          (findProduct (updateProduct ps ci.product_id
            (fun q => { q with stock := q.stock - (ci.quantity : Int) }))
            ci'.product_id).isSome := by
        intro ci' hm
        rw [findProduct_updateProduct_isSome ps ci.product_id ci'.product_id
          (fun q => { q with stock := q.stock - (ci.quantity : Int) }) (fun q => rfl)]
        exact hex ci' (List.mem_cons_of_mem ci hm)
      obtain ⟨⟨items0, ps0⟩, hr⟩ := ih _ hex'
      refine ⟨(⟨ci.product_id, ci.quantity, p.price⟩ :: items0, ps0), ?_⟩
      simp [mkOrderItems, hfp, hr, Bind.bind, Except.bind]

theorem cartTotalPrice_val (cart : List CartItem) (ps : List Product) (t : Int)
    (h : cartTotalPrice ps cart = .ok t) :
    t = (cart.map (fun ci => (ci.quantity : Int) * priceOf ps ci.product_id)).sum := by
  induction cart generalizing t with
  | nil =>
    simp only [cartTotalPrice, Except.ok.injEq] at h
    simp [← h]
  | cons ci rest ih =>
    cases hfp : findProduct ps ci.product_id with
    | none => simp [cartTotalPrice, hfp] at h
    | some p =>
      simp only [cartTotalPrice, hfp] at h
      cases hrec : cartTotalPrice ps rest with
      | error e => rw [hrec] at h; simp [Bind.bind, Except.bind] at h
      | ok t0 =>
        rw [hrec] at h
        simp only [Bind.bind, Except.bind, Except.ok.injEq] at h
        rw [← h, ih t0 hrec]
        simp [priceOf, hfp]

theorem cartTotalPrice_isOk (cart : List CartItem) (ps : List Product)
    (hex : ∀ ci ∈ cart, (findProduct ps ci.product_id).isSome) :
    ∃ t, cartTotalPrice ps cart = .ok t := by
  induction cart with
  | nil => exact ⟨0, rfl⟩
  | cons ci rest ih =>
    have h1 : (findProduct ps ci.product_id).isSome := hex ci (by simp)
    cases hfp : findProduct ps ci.product_id with
    | none => rw [hfp] at h1; simp at h1
    | some p =>
      obtain ⟨t0, hr⟩ := ih (fun ci' hm => hex ci' (List.mem_cons_of_mem ci hm))
      exact ⟨(ci.quantity : Int) * p.price + t0,
        by simp [cartTotalPrice, hfp, hr, Bind.bind, Except.bind]⟩

theorem restoreStock_findProduct (items : List OrderItem) (ps : List Product)
    (pid : Nat) :
    findProduct (restoreStock ps items) pid = (findProduct ps pid).map
      (fun p => { p with stock := p.stock + (orderQty items pid : Int) }) := by
  induction items generalizing ps with
  | nil => cases hfp : findProduct ps pid <;> simp [restoreStock, orderQty, hfp]
  | cons it rest ih =>
    have hstep : restoreStock ps (it :: rest) =
        restoreStock (updateProduct ps it.product_id
          (fun p => { p with stock := p.stock + (it.quantity : Int) })) rest := rfl
    rw [hstep, ih]
    rw [findProduct_updateProduct ps it.product_id pid
      (fun p => { p with stock := p.stock + (it.quantity : Int) }) (fun q => rfl)]
    rw [orderQty_cons]
    by_cases hp : pid = it.product_id
    · have hp' : it.product_id = pid := hp.symm
      simp only [if_pos hp, if_pos hp', Option.map_map]
      cases findProduct ps pid with
      | none => rfl
      | some q =>
        have : q.stock + (it.quantity : Int) + (orderQty rest pid : Int) =
            q.stock + ((it.quantity + orderQty rest pid : Nat) : Int) := by
          push_cast
          ring
        simp [this]
    · have hp' : ¬ it.product_id = pid := fun hh => hp hh.symm
      simp only [if_neg hp, if_neg hp', Nat.zero_add]

theorem placeOrder_elim (s : State) (o : Order) (s' : State)
    (h : placeOrder s = .ok (o, s')) :
    s.cart.isEmpty = false ∧
    ∃ t items ps',
      cartTotalPrice s.products s.cart = .ok t ∧
      mkOrderItems s.products s.cart = .ok (items, ps') ∧
      o = { total_price := t, status := .pending, items := items } ∧
      s'.products = ps' ∧ s'.cart = [] ∧ s'.orders = s.orders ++ [o] := by
  by_cases he : s.cart.isEmpty
  · simp [placeOrder, he] at h
  · have he' : s.cart.isEmpty = false := by
      cases hb : s.cart.isEmpty
      · rfl
      · exact absurd hb he
    refine ⟨he', ?_⟩
    simp only [placeOrder, he', Bool.false_eq_true, if_false] at h
    cases h1 : cartTotalPrice s.products s.cart with
    | error e => rw [h1] at h; simp [Bind.bind, Except.bind] at h
    | ok t =>
      rw [h1] at h
      cases h2 : mkOrderItems s.products s.cart with
      | error e => rw [h2] at h; simp [Bind.bind, Except.bind] at h
      | ok r =>
        obtain ⟨items, ps'⟩ := r
        rw [h2] at h
        simp only [Bind.bind, Except.bind, Except.ok.injEq, Prod.mk.injEq] at h
        obtain ⟨ho, hs⟩ := h
        refine ⟨t, items, ps', rfl, rfl, ho.symm, ?_, ?_, ?_⟩
        · rw [← hs]
        · rw [← hs]
        · rw [← hs, ho]

theorem orderQty_of_cartItems (cart : List CartItem) (f : CartItem → Int)
    (pid : Nat) :
    orderQty (cart.map (fun ci =>
      { product_id := ci.product_id, quantity := ci.quantity, price := f ci }))
      pid = cartQty cart pid := by
  induction cart with
  | nil => rfl
  | cons ci rest ih => rw [List.map_cons, orderQty_cons, cartQty_cons, ih]

theorem placeOrder_behavior (s : State)
    (hne : s.cart ≠ [])
    (hex : ∀ ci ∈ s.cart, (findProduct s.products ci.product_id).isSome) :
    ∃ o s', placeOrder s = .ok (o, s')
      ∧ o.total_price = (s.cart.map (fun ci =>
          (ci.quantity : Int) * priceOf s.products ci.product_id)).sum
      ∧ o.items = s.cart.map (fun ci =>
          ({ product_id := ci.product_id, quantity := ci.quantity,
             price := priceOf s.products ci.product_id } : OrderItem))
      ∧ ∀ pid, findProduct s'.products pid = (findProduct s.products pid).map
          (fun p => { p with stock := p.stock - (cartQty s.cart pid : Int) }) := by
  have he : s.cart.isEmpty = false := by
    cases hc : s.cart
    · exact absurd hc hne
    · rfl
  obtain ⟨t, h1⟩ := cartTotalPrice_isOk s.cart s.products hex
  obtain ⟨⟨items, ps'⟩, h2⟩ := mkOrderItems_isOk s.cart s.products hex
  refine ⟨{ total_price := t, status := .pending, items := items },
    { products := ps', cart := [], orders := s.orders ++
        [{ total_price := t, status := .pending, items := items }] }, ?_, ?_, ?_, ?_⟩
  · simp [placeOrder, he, h1, h2, Bind.bind, Except.bind]
  · exact cartTotalPrice_val _ _ _ h1
  · exact mkOrderItems_items _ _ _ _ h2
  · intro pid
    exact mkOrderItems_stock _ _ _ _ h2 pid

/-! ## Claim theorems -/

/-- C1. For a non-empty cart over existing products, placing an order
succeeds and creates an order whose `total_price` is the sum over cart items
of quantity times the product's price at placement time, with exactly one
order item per cart item (price copied from the product's current price,
quantity copied from the cart item), and decrements each product's stock by
the total ordered quantity. -/
theorem placeOrder_creates_correct_order (s : State)
    (hne : s.cart ≠ [])
    (hex : ∀ ci ∈ s.cart, (findProduct s.products ci.product_id).isSome) :
    ∃ o s', placeOrder s = .ok (o, s')
      ∧ o.total_price = (s.cart.map (fun ci =>
          (ci.quantity : Int) * priceOf s.products ci.product_id)).sum
      ∧ o.items = s.cart.map (fun ci =>
          ({ product_id := ci.product_id, quantity := ci.quantity,
             price := priceOf s.products ci.product_id } : OrderItem))
      ∧ ∀ pid, findProduct s'.products pid = (findProduct s.products pid).map
          (fun p => { p with stock := p.stock - (cartQty s.cart pid : Int) }) :=
  placeOrder_behavior s hne hex

/-- C2 counterexample. Starting from a single product with stock 1, two
quantity-1 cart adds both pass the availability check (each compares only the
newly requested quantity against stock), and order placement performs no
stock validation before decrementing, so the final stock is -1 < 0 — the
claimed invariant "stock never becomes negative" fails on a purely
sequential run, with no concurrency involved. -/
theorem stock_goes_negative_counterexample :
    addToCart { products := [⟨1, 10, 1, true⟩], cart := [], orders := [] } 1 1
      = .ok { products := [⟨1, 10, 1, true⟩], cart := [⟨1, 1⟩], orders := [] }
    ∧ addToCart { products := [⟨1, 10, 1, true⟩], cart := [⟨1, 1⟩], orders := [] } 1 1
      = .ok { products := [⟨1, 10, 1, true⟩], cart := [⟨1, 2⟩], orders := [] }
    ∧ placeOrder { products := [⟨1, 10, 1, true⟩], cart := [⟨1, 2⟩], orders := [] }
      = .ok ({ total_price := 20, status := .pending, items := [⟨1, 2, 10⟩] },
             { products := [⟨1, 10, -1, true⟩], cart := [],
               orders := [{ total_price := 20, status := .pending,
                            items := [⟨1, 2, 10⟩] }] })
    ∧ ((-1 : Int) < 0) := by
  refine ⟨rfl, rfl, rfl, by decide⟩

/-- C2 amended. Stock-availability checks happen only on cart add/update;
`OrderCreateSerializer.create` performs no stock validation before
decrementing, so whenever the (non-empty) cart's total quantity for an
existing product exceeds that product's current stock, placement succeeds
anyway and leaves the product's stock strictly negative. -/
theorem placeOrder_no_stock_validation (s : State)
    (hne : s.cart ≠ [])
    (hex : ∀ ci ∈ s.cart, (findProduct s.products ci.product_id).isSome)
    (pid : Nat) (p : Product)
    (hp : findProduct s.products pid = some p)
    (hlow : p.stock < (cartQty s.cart pid : Int)) :
    ∃ o s', placeOrder s = .ok (o, s')
      ∧ ∃ p', findProduct s'.products pid = some p' ∧ p'.stock < 0 := by
  obtain ⟨o, s', hok, -, -, hstock⟩ := placeOrder_behavior s hne hex
  refine ⟨o, s', hok,
    ⟨{ p with stock := p.stock - (cartQty s.cart pid : Int) }, ?_, ?_⟩⟩
  · rw [hstock pid, hp]
    rfl
  · show p.stock - (cartQty s.cart pid : Int) < 0
    omega

/-- C3. Cancellation is rejected with an error (and, the handler aborting,
no state change) exactly when the order's status is shipped or delivered;
otherwise it increments each line item's product stock by the item quantity
and sets the status to cancelled; and cancelling a just-placed order restores
every product's stock to its pre-order level. -/
theorem cancelOrder_correct (s : State) (i : Nat) (o : Order)
    (ho : s.orders.get? i = some o) :
    ((o.status = .shipped ∨ o.status = .delivered) →
        cancelOrder s i = .error "Cannot cancel shipped or delivered orders")
    ∧ (¬(o.status = .shipped ∨ o.status = .delivered) →
        ∃ s', cancelOrder s i = .ok s'
          ∧ (∀ pid, findProduct s'.products pid = (findProduct s.products pid).map
              (fun p => { p with stock := p.stock + (orderQty o.items pid : Int) }))
          ∧ s'.orders = s.orders.set i { o with status := .cancelled }
          ∧ s'.cart = s.cart)
    ∧ (∀ s₀ o₁ s₁ s₂ j, placeOrder s₀ = .ok (o₁, s₁) →
        s₁.orders.get? j = some o₁ → cancelOrder s₁ j = .ok s₂ →
        ∀ pid, findProduct s₂.products pid = findProduct s₀.products pid) := by
  refine ⟨?_, ?_, ?_⟩
  · intro hst
    simp only [cancelOrder, ho, if_pos hst]
  · intro hst
    refine ⟨{ s with
        products := restoreStock s.products o.items,
        orders := s.orders.set i { o with status := .cancelled } }, ?_, ?_, rfl, rfl⟩
    · simp only [cancelOrder, ho, if_neg hst]
    · intro pid
      exact restoreStock_findProduct o.items s.products pid
  · intro s₀ o₁ s₁ s₂ j hpl hj hcan pid
    obtain ⟨-, t, items, ps', h1, h2, ho₁, hp₁, -, -⟩ := placeOrder_elim s₀ o₁ s₁ hpl
    have hst : ¬(o₁.status = .shipped ∨ o₁.status = .delivered) := by
      rw [ho₁]
      simp
    have hprod : s₂.products = restoreStock s₁.products o₁.items := by
      simp only [cancelOrder, hj, if_neg hst, Except.ok.injEq] at hcan
      rw [← hcan]
    rw [hprod, restoreStock_findProduct, hp₁, mkOrderItems_stock _ _ _ _ h2 pid]
    have hq : orderQty o₁.items pid = cartQty s₀.cart pid := by
      rw [ho₁]
      show orderQty items pid = _
      rw [mkOrderItems_items _ _ _ _ h2]
      exact orderQty_of_cartItems s₀.cart
        (fun ci => priceOf s₀.products ci.product_id) pid
    rw [hq, Option.map_map]
    cases findProduct s₀.products pid with
    | none => rfl
    | some p => simp

/-- C6 counterexample. `update_status` never consults the current status:
a delivered order is moved straight back to pending, refuting
"no operation moves an order out of a non-pending status". -/
theorem updateStatus_delivered_to_pending :
    updateStatus ({ products := [], cart := [],
                    orders := [{ total_price := 5, status := .delivered,
                                 items := [] }] })
        0 "pending"
      = .ok ({ products := [], cart := [],
               orders := [{ total_price := 5, status := .pending,
                            items := [] }] }) := by
  rfl

/-- C6 amended. `update_status` validates only that the new status string
is one of the five `STATUS_CHOICES`; the current status is never consulted, so
every valid status is reachable from every current status (in particular
delivered → pending). Only `cancel` checks the current status (rejecting
exactly shipped/delivered, see the C3 theorem). -/
theorem updateStatus_unrestricted (s : State) (i : Nat) (o : Order) (str : String)
    (ho : s.orders.get? i = some o) :
    (statusFromString str = none → updateStatus s i str = .error "Invalid status")
    ∧ (∀ st, statusFromString str = some st →
        updateStatus s i str =
          .ok { s with orders := s.orders.set i { o with status := st } }) := by
  constructor
  · intro hn
    simp only [updateStatus, ho, hn]
  · intro st hst
    simp only [updateStatus, ho, hst]

/-- C7. Adding a cart item whose requested quantity exceeds the product's
current stock is rejected by `CartItemSerializer.validate` before any cart
row is touched; the handler aborts with a validation error (in this embedding
an `Except.error` result returns no new state, so the cart is unchanged). -/
theorem addToCart_insufficient_stock (s : State) (pid qty : Nat) (p : Product)
    (hp : findProduct s.products pid = some p)
    (hs : p.stock < (qty : Int)) :
    ∃ e, addToCart s pid qty = .error e := by
  by_cases hq : qty < 1
  · refine ⟨"Quantity must be at least 1", ?_⟩
    simp [addToCart, validateCartItem, hq]
  · refine ⟨"Only N items available in stock", ?_⟩
    simp [addToCart, validateCartItem, hq, hp, hs]

/-- C8. Order item prices are snapshots: a later product price update
touches no order row, and every order item's stored price (hence the order's
`total_price`) equals the product price at placement time. -/
theorem orderItem_prices_frozen (s : State) (o : Order) (s₁ : State)
    (h : placeOrder s = .ok (o, s₁)) (pid : Nat) (newPrice : Int) :
    (updateProductPrice s₁ pid newPrice).orders = s₁.orders
    ∧ o ∈ s₁.orders
    ∧ o.items.map (fun it => it.price)
        = s.cart.map (fun ci => priceOf s.products ci.product_id)
    ∧ o.total_price = (s.cart.map (fun ci =>
        (ci.quantity : Int) * priceOf s.products ci.product_id)).sum := by
  obtain ⟨-, t, items, ps', h1, h2, ho, -, -, hor⟩ := placeOrder_elim s o s₁ h
  refine ⟨rfl, ?_, ?_, ?_⟩
  · rw [hor]
    simp
  · rw [ho]
    show items.map (fun it => it.price) = _
    rw [mkOrderItems_items _ _ _ _ h2, List.map_map]
    rfl
  · rw [ho]
    exact cartTotalPrice_val _ _ _ h1

/-- C9. Deleting a product is a soft delete: `perform_destroy` only flips
`is_active` to false (id, price and stock unchanged), the row still exists
(same table length, still findable), no order row is touched, and the product
no longer appears in the `is_active=True` public listing. -/
theorem performDestroy_soft_delete (s : State) (pid : Nat) (p : Product)
    (hp : findProduct s.products pid = some p) :
    findProduct (performDestroy s pid).products pid
        = some { p with is_active := false }
    ∧ (∀ pid', pid' ≠ pid →
        findProduct (performDestroy s pid).products pid'
          = findProduct s.products pid')
    ∧ (performDestroy s pid).products.length = s.products.length
    ∧ (performDestroy s pid).orders = s.orders
    ∧ (performDestroy s pid).cart = s.cart
    ∧ findProduct (publicProducts (performDestroy s pid).products) pid = none := by
  refine ⟨?_, ?_, ?_, rfl, rfl, ?_⟩
  · show findProduct (updateProduct s.products pid _) pid = _
    rw [findProduct_updateProduct s.products pid pid
      (fun q => { q with is_active := false }) (fun q => rfl), if_pos rfl, hp]
    rfl
  · intro pid' hne
    show findProduct (updateProduct s.products pid _) pid' = _
    rw [findProduct_updateProduct s.products pid pid'
      (fun q => { q with is_active := false }) (fun q => rfl), if_neg hne]
  · simp [performDestroy, updateProduct]
  · show ((updateProduct s.products pid
      (fun q => { q with is_active := false })).filter (fun p => p.is_active)).find?
        (fun p => p.id == pid) = none
    rw [List.find?_eq_none]
    intro x hx
    rw [List.mem_filter] at hx
    obtain ⟨hxm, hxa⟩ := hx
    rw [updateProduct, List.mem_map] at hxm
    obtain ⟨y, hy, hxy⟩ := hxm
    by_cases hid : y.id = pid
    · rw [← hxy] at hxa
      simp [hid] at hxa
    · rw [← hxy]
      simp [hid]

/-- C10. Adding a product that is already in the cart increments the
existing cart item's quantity by the newly requested amount (it does not
replace it), and the availability check compares only the new quantity
against stock — so the accumulated cart quantity may exceed the stock. -/
theorem addToCart_accumulates (s : State) (pid qty : Nat) (p : Product)
    (ci : CartItem)
    (hp : findProduct s.products pid = some p)
    (hci : s.cart.find? (fun c => c.product_id == pid) = some ci)
    (hq : 1 ≤ qty) (hstock : (qty : Int) ≤ p.stock) (hact : p.is_active = true) :
    ∃ s', addToCart s pid qty = .ok s'
      ∧ s'.products = s.products
      ∧ s'.cart.find? (fun c => c.product_id == pid)
          = some { ci with quantity := ci.quantity + qty } := by
  have hnq : ¬ qty < 1 := by omega
  have hns : ¬ p.stock < (qty : Int) := not_lt.mpr hstock
  have hval : validateCartItem s.products pid qty = .ok () := by
    simp [validateCartItem, hnq, hp, hns, hact]
  have hcid : (ci.product_id == pid) = true := by
    have h := List.find?_some hci
    simpa using h
  refine ⟨{ s with cart := s.cart.map (fun c =>
      if c.product_id == pid then { c with quantity := c.quantity + qty }
      else c) }, ?_, rfl, ?_⟩
  · unfold addToCart
    rw [hval, hci]
  · show (s.cart.map _).find? _ = _
    rw [List.find?_map]
    have hcomp : ((fun c : CartItem => c.product_id == pid) ∘
        (fun c => if c.product_id == pid
          then { c with quantity := c.quantity + qty } else c))
        = fun c : CartItem => c.product_id == pid := by
      funext c
      by_cases h : c.product_id = pid <;> simp [h]
    rw [hcomp, hci]
    simp [Option.map, hcid]

/-- C4. After a successful order placement the user's cart contains zero
items (`cart.items.all().delete()`). -/
theorem placeOrder_clears_cart (s : State) (o : Order) (s' : State)
    (h : placeOrder s = .ok (o, s')) : s'.cart = [] := by
  obtain ⟨-, t, items, ps', -, -, -, -, hc, -⟩ := placeOrder_elim s o s' h
  exact hc

/-- C5. Placing an order with an empty cart raises the validation error
"Cart is empty"; in this embedding an `Except.error` result is a request
aborted before returning a new state, so no order, order items or stock
mutation is produced. -/
theorem placeOrder_empty_cart_error (s : State) (h : s.cart = []) :
    placeOrder s = .error "Cart is empty" := by
  simp [placeOrder, h]

/-! ## Concrete example states and witnesses

The worked example from the spec: product A (id 1, price 10, stock 5) and
product B (id 2, price 5, stock 3), cart [(A, qty 2), (B, qty 1)]. -/

/-- Product table of the worked example. -/
def exProducts : List Product := [⟨1, 10, 5, true⟩, ⟨2, 5, 3, true⟩]

/-- State with the worked example's cart [(A, 2), (B, 1)]. -/
def exState : State :=
  { products := exProducts, cart := [⟨1, 2⟩, ⟨2, 1⟩], orders := [] }

/-- The order that placing `exState`'s cart creates: total 2·10 + 1·5 = 25. -/
def exOrder : Order :=
  { total_price := 25, status := .pending, items := [⟨1, 2, 10⟩, ⟨2, 1, 5⟩] }

/-- The state after `placeOrder exState`: stocks 5-2=3 and 3-1=2, cart empty. -/
def exPlaced : State :=
  { products := [⟨1, 10, 3, true⟩, ⟨2, 5, 2, true⟩], cart := [],
    orders := [exOrder] }

/-- State with an empty cart (for the empty-cart validation error). -/
def exEmptyCart : State := { products := exProducts, cart := [], orders := [] }

/-- State whose cart quantity (2) exceeds the product's stock (1). -/
def exOverfull : State :=
  { products := [⟨1, 10, 1, true⟩], cart := [⟨1, 2⟩], orders := [] }

/-- State holding one delivered order. -/
def exDelivered : State :=
  { products := [], cart := [],
    orders := [{ total_price := 5, status := .delivered, items := [] }] }

/-- State with a low-stock product (stock 1) and an empty cart. -/
def exLowStock : State :=
  { products := [⟨7, 4, 1, true⟩], cart := [], orders := [] }

/-- State where product 1 (stock 2) is already in the cart with quantity 2. -/
def exRepeat : State :=
  { products := [⟨1, 10, 2, true⟩], cart := [⟨1, 2⟩], orders := [] }

/-- Witness for C1 at the worked example: placement succeeds with total 25. -/
theorem placeOrder_creates_correct_order_witness :
    ∃ o s', placeOrder exState = .ok (o, s') ∧ o.total_price = 25 := by
  obtain ⟨o, s', hok, htot, -, -⟩ :=
    placeOrder_creates_correct_order exState (by decide) (by decide)
  refine ⟨o, s', hok, ?_⟩
  rw [htot]
  decide

/-- Witness for the C2 amended theorem: placing the overfull cart succeeds
and leaves a negative stock. -/
theorem placeOrder_no_stock_validation_witness :
    ∃ o s', placeOrder exOverfull = .ok (o, s')
      ∧ ∃ p', findProduct s'.products 1 = some p' ∧ p'.stock < 0 :=
  placeOrder_no_stock_validation exOverfull (by decide) (by decide) 1
    ⟨1, 10, 1, true⟩ (by decide) (by decide)

/-- Witness for C3: cancelling the freshly placed pending order succeeds and
leaves the cart as it was. -/
theorem cancelOrder_correct_witness :
    ∃ s', cancelOrder exPlaced 0 = .ok s' ∧ s'.cart = exPlaced.cart := by
  obtain ⟨-, h2, -⟩ := cancelOrder_correct exPlaced 0 exOrder rfl
  obtain ⟨s', hok, -, -, hc⟩ := h2 (by decide)
  exact ⟨s', hok, hc⟩

/-- Witness for C4: the concrete placement leaves an empty cart. -/
theorem placeOrder_clears_cart_witness : exPlaced.cart = [] :=
  placeOrder_clears_cart exState exOrder exPlaced rfl

/-- Witness for C5: placing with an empty cart errors. -/
theorem placeOrder_empty_cart_error_witness :
    placeOrder exEmptyCart = .error "Cart is empty" :=
  placeOrder_empty_cart_error exEmptyCart rfl

/-- Witness for the C6 amended theorem: the delivered order is set to pending. -/
theorem updateStatus_unrestricted_witness :
    updateStatus exDelivered 0 "pending"
      = .ok { exDelivered with
              orders := exDelivered.orders.set 0
                { total_price := 5, status := .pending, items := [] } } :=
  (updateStatus_unrestricted exDelivered 0
    ⟨5, .delivered, []⟩ "pending" rfl).2 .pending rfl

/-- Witness for C7: requesting quantity 2 with stock 1 is rejected. -/
theorem addToCart_insufficient_stock_witness :
    ∃ e, addToCart exLowStock 7 2 = .error e :=
  addToCart_insufficient_stock exLowStock 7 2 ⟨7, 4, 1, true⟩ rfl (by decide)

/-- Witness for C8: after placing the worked example and repricing product 1
to 999, the order rows are untouched and the stored prices are the
placement-time ones. -/
theorem orderItem_prices_frozen_witness :
    (updateProductPrice exPlaced 1 999).orders = exPlaced.orders
    ∧ exOrder ∈ exPlaced.orders
    ∧ exOrder.items.map (fun it => it.price)
        = exState.cart.map (fun ci => priceOf exState.products ci.product_id) := by
  obtain ⟨h1, h2, h3, -⟩ := orderItem_prices_frozen exState exOrder exPlaced rfl 1 999
  exact ⟨h1, h2, h3⟩

/-- Witness for C9: soft-deleting product 1 flips only `is_active`, keeps the
row and the orders, and removes it from the public listing. -/
theorem performDestroy_soft_delete_witness :
    findProduct (performDestroy exState 1).products 1 = some ⟨1, 10, 5, false⟩
    ∧ (performDestroy exState 1).orders = exState.orders
    ∧ findProduct (publicProducts (performDestroy exState 1).products) 1 = none := by
  obtain ⟨h1, -, -, h4, -, h6⟩ :=
    performDestroy_soft_delete exState 1 ⟨1, 10, 5, true⟩ rfl
  exact ⟨h1, h4, h6⟩

/-- Witness for C10: re-adding quantity 2 of product 1 (stock 2) passes the
check and accumulates the cart row to quantity 4, exceeding the stock. -/
theorem addToCart_accumulates_witness :
    ∃ s', addToCart exRepeat 1 2 = .ok s'
      ∧ s'.cart.find? (fun c => c.product_id == 1) = some ⟨1, 4⟩ := by
  obtain ⟨s', hok, -, hfind⟩ := addToCart_accumulates exRepeat 1 2
    ⟨1, 10, 2, true⟩ ⟨1, 2⟩ rfl rfl (by decide) (by decide) rfl
  exact ⟨s', hok, hfind⟩

end Marketplace
